import Mathlib

/-!
Verification of the statssheets statistical estimation engine.

The numeric routines of the repository (descriptive_stats.py,
least_squares_matrix.py, sampling_exercise.py) are shallowly embedded
over the rationals: Python float arithmetic is modelled exactly by the
field operations of the rational numbers, and the square root (used
only for the standard deviation and the standard errors) is modelled
over the reals on top of the rational core.  Fallible code is embedded
as Except: a Python division by zero becomes an error value, labelled
by the failure it signals in the error taxonomy of the specification
(the Python source raises a bare ZeroDivisionError at each of these
program points; the labels record which validation failure the spec
assigns to that point).
-/

/-- Error taxonomy of the engine.  Each constructor labels a concrete
division-by-zero site of the Python source:
insufficientSampleSize for the divisions by n and by n - 1 in
descriptive_stats (n is 0 or 1), singularDesignMatrix for the
divisions by det when inverting XtX in ols_matrix (det is 0), and
degenerateDegreesOfFreedom for the division by n - 2 computing mse in
ols_matrix (n is 2). -/
inductive StatError : Type where
  | insufficientSampleSize : StatError
  | singularDesignMatrix : StatError
  | degenerateDegreesOfFreedom : StatError
deriving DecidableEq, Repr

/-- Decidable equality of Except values, by cases on the constructor,
so that runs of the embedded engine can be checked by evaluation. -/
instance {ε α : Type} [DecidableEq ε] [DecidableEq α] : DecidableEq (Except ε α) :=
  fun a b =>
  match a, b with
  | .error e, .error f =>
    if h : e = f then .isTrue (by rw [h]) else .isFalse (by simp [h])
  | .error _, .ok _ => .isFalse (by simp)
  | .ok _, .error _ => .isFalse (by simp)
  | .ok v, .ok w =>
    if h : v = w then .isTrue (by rw [h]) else .isFalse (by simp [h])

/-- Result record of descriptive_stats (the rational fields; the
standard deviation and CV, which involve a square root, are derived
real-valued fields defined below). -/
structure DStats : Type where
  n : Nat
  mean : ℚ
  variance : ℚ
  deviations : List ℚ
  sq_deviations : List ℚ
deriving DecidableEq, Repr

/-- Embedding of descriptive_stats from src/scripts/descriptive_stats.py:
n = len(data); mean = sum(data)/n; deviations = [x - mean for x in data];
sq_deviations = [d**2 for d in deviations];
variance = sum(sq_deviations)/(n-1).  The divisions by n and by n - 1
raise ZeroDivisionError in Python when n = 0 resp. n = 1; both failures
are the insufficientSampleSize case of the taxonomy. -/
def descriptive_stats (data : List ℚ) : Except StatError DStats :=
  let n := data.length
  if n = 0 then .error .insufficientSampleSize
  else
    let mean := data.sum / (n : ℚ)
    let deviations := data.map (fun x => x - mean)
    let sq_deviations := deviations.map (fun d => d ^ 2)
    if n = 1 then .error .insufficientSampleSize
    else
      let variance := sq_deviations.sum / ((n : ℚ) - 1)
      .ok { n := n, mean := mean, variance := variance,
            deviations := deviations, sq_deviations := sq_deviations }

/-- std_dev = math.sqrt(variance), the only irrational step of
descriptive_stats, taken over the reals. -/
noncomputable def DStats.std_dev (s : DStats) : ℝ :=
  Real.sqrt (s.variance : ℝ)

/-- cv = std_dev / mean if mean != 0 else float(inf), over the extended
reals so that the infinity convention is a value, not an error. -/
noncomputable def DStats.cv (s : DStats) : EReal :=
  if s.mean = 0 then ⊤ else ((s.std_dev / (s.mean : ℝ) : ℝ) : EReal)

/-- Result record of ols_matrix (the rational fields; the standard
errors and t statistics, which involve a square root, are derived
real-valued fields defined below). -/
structure OlsResult : Type where
  b0 : ℚ
  b1 : ℚ
  r_squared : ℚ
  ss_reg : ℚ
  ss_res : ℚ
  ss_tot : ℚ
  mse : ℚ
  y_hat : List ℚ
  residuals : List ℚ
  xtx00 : ℚ
  xtx01 : ℚ
  xtx10 : ℚ
  xtx11 : ℚ
  xty0 : ℚ
  xty1 : ℚ
  inv00 : ℚ
  inv01 : ℚ
  inv10 : ℚ
  inv11 : ℚ
  det : ℚ
deriving DecidableEq, Repr

/-- Embedding of ols_matrix from src/scripts/least_squares_matrix.py.
Builds XtX = [[n, sum_x], [sum_x, sum_x2]] and XtY = [sum_y, sum_xy],
inverts the 2x2 matrix analytically (the four divisions by det raise
ZeroDivisionError in Python when det = 0: the singularDesignMatrix
case), computes beta, predictions, residuals, the sum-of-squares
decomposition and r_squared, then mse = ss_res / (n - p) with p = 2
(ZeroDivisionError when n = 2: the degenerateDegreesOfFreedom case). -/
def ols_matrix (x y : List ℚ) : Except StatError OlsResult :=
  let n := x.length
  let sum_x := x.sum
  let sum_x2 := (x.map (fun xi => xi ^ 2)).sum
  let sum_y := y.sum
  let sum_xy := (List.zipWith (fun xi yi => xi * yi) x y).sum
  let det := (n : ℚ) * sum_x2 - sum_x * sum_x
  if det = 0 then .error .singularDesignMatrix
  else
    let inv00 := sum_x2 / det
    let inv01 := -sum_x / det
    let inv10 := -sum_x / det
    let inv11 := (n : ℚ) / det
    let b0 := inv00 * sum_y + inv01 * sum_xy
    let b1 := inv10 * sum_y + inv11 * sum_xy
    let y_hat := x.map (fun xi => b0 + b1 * xi)
    let residuals := List.zipWith (fun yi yhi => yi - yhi) y y_hat
    let y_mean := sum_y / (n : ℚ)
    let ss_res := (residuals.map (fun r => r ^ 2)).sum
    let ss_tot := (y.map (fun yi => (yi - y_mean) ^ 2)).sum
    let ss_reg := ss_tot - ss_res
    let r_squared := if ss_tot > 0 then 1 - ss_res / ss_tot else 0
    if n = 2 then .error .degenerateDegreesOfFreedom
    else
      let mse := ss_res / ((n : ℚ) - 2)
      .ok { b0 := b0, b1 := b1, r_squared := r_squared,
            ss_reg := ss_reg, ss_res := ss_res, ss_tot := ss_tot,
            mse := mse, y_hat := y_hat, residuals := residuals,
            xtx00 := (n : ℚ), xtx01 := sum_x, xtx10 := sum_x, xtx11 := sum_x2,
            xty0 := sum_y, xty1 := sum_xy,
            inv00 := inv00, inv01 := inv01, inv10 := inv10, inv11 := inv11,
            det := det }

/-- se_b0 = math.sqrt(mse * xtx_inv[0][0]) over the reals. -/
noncomputable def OlsResult.se_b0 (r : OlsResult) : ℝ :=
  Real.sqrt ((r.mse * r.inv00 : ℚ) : ℝ)

/-- se_b1 = math.sqrt(mse * xtx_inv[1][1]) over the reals. -/
noncomputable def OlsResult.se_b1 (r : OlsResult) : ℝ :=
  Real.sqrt ((r.mse * r.inv11 : ℚ) : ℝ)

/-- Embedding of sample_size_infinite from
src/scripts/sampling_exercise.py: n0 = (z * cv / precision) ^ 2. -/
def sample_size_infinite (z cv precision : ℚ) : ℚ :=
  (z * cv / precision) ^ 2

/-- Embedding of sample_size_finite from src/scripts/sampling_exercise.py:
the finite population correction n = (n0 * N) / (n0 + N). -/
def sample_size_finite (n0 N : ℚ) : ℚ :=
  (n0 * N) / (n0 + N)

/-- Embedding of the fixed z table of z_score from
src/scripts/sampling_exercise.py.  Confidence levels outside the table
fall back to the inverse normal CDF of the Python statistics library,
which is outside the engine and not modelled; the table part returns
some, everything else none. -/
def z_score (confidence_pct : ℤ) : Option ℚ :=
  if confidence_pct = 80 then some (1282 / 1000)
  else if confidence_pct = 85 then some (1440 / 1000)
  else if confidence_pct = 90 then some (1645 / 1000)
  else if confidence_pct = 95 then some (1960 / 1000)
  else if confidence_pct = 99 then some (2576 / 1000)
  else none

/-- Embedding of generate_population from
src/scripts/sampling_exercise.py: n draws from random.gauss, each
clamped by max(0, draw).  The normal sampler is Python library state;
it is abstracted as an arbitrary stream of draws g, so every theorem
below holds for every possible sequence of gaussian outcomes. -/
def generate_population (g : ℕ → ℚ) (n : ℕ) : List ℚ :=
  (List.range n).map (fun i => max 0 (g i))

/-- Modelled from the spec: random.sample of the Python standard
library is not part of the repository; its contract (a simple random
sample without replacement of the requested size) is modelled as
index selection without replacement, driven by an abstract stream of
raw random numbers pick. -/
def sample_without_replacement : List ℚ → ℕ → (ℕ → ℕ) → List ℚ
  | _, 0, _ => []
  | pool, k + 1, pick =>
    if _hp : pool.length = 0 then []
    else
      let i := pick k % pool.length
      pool.getD i 0 :: sample_without_replacement (pool.eraseIdx i) k pick

/-- Embedding of draw_sample from src/scripts/sampling_exercise.py:
random.sample(population, min(sample_size, len(population))). -/
def draw_sample (population : List ℚ) (sample_size : ℕ) (pick : ℕ → ℕ) : List ℚ :=
  sample_without_replacement population (min sample_size population.length) pick

/-- The determinant of XtX as computed on line 33 of
least_squares_matrix.py: det = n * sum_x2 - sum_x * sum_x (a named
form of the let-bound intermediate of ols_matrix). -/
def olsDet (x : List ℚ) : ℚ :=
  (x.length : ℚ) * (x.map (fun xi => xi ^ 2)).sum - x.sum * x.sum

/-- The intercept b0 = inv00 * sum_y + inv01 * sum_xy as computed on
line 40 of least_squares_matrix.py (named form of the let-bound
intermediate of ols_matrix). -/
def olsB0 (x y : List ℚ) : ℚ :=
  ((x.map (fun xi => xi ^ 2)).sum / olsDet x) * y.sum
    + (-x.sum / olsDet x) * (List.zipWith (fun xi yi => xi * yi) x y).sum

/-- The slope b1 = inv10 * sum_y + inv11 * sum_xy as computed on line
41 of least_squares_matrix.py (named form of the let-bound
intermediate of ols_matrix). -/
def olsB1 (x y : List ℚ) : ℚ :=
  (-x.sum / olsDet x) * y.sum
    + ((x.length : ℚ) / olsDet x) * (List.zipWith (fun xi yi => xi * yi) x y).sum

/-- ss_res = sum of squared residuals as computed on line 49 of
least_squares_matrix.py (named form of the let-bound intermediate of
ols_matrix). -/
def olsSSres (x y : List ℚ) : ℚ :=
  ((List.zipWith (fun yi yhi => yi - yhi) y
      (x.map (fun xi => olsB0 x y + olsB1 x y * xi))).map (fun r => r ^ 2)).sum

/-- ss_tot = sum of squared deviations of y from its mean as computed
on line 50 of least_squares_matrix.py (named form of the let-bound
intermediate of ols_matrix; the mean divides by n = len(x)). -/
def olsSStot (x y : List ℚ) : ℚ :=
  (y.map (fun yi => (yi - y.sum / (x.length : ℚ)) ^ 2)).sum

/-- Modelled from the spec (refinement reference, deliberately written
from the words of the spec rather than from the source): steps 1 to 5
of the fit algorithm build XtX = [[a, b], [c, d]] = [[n, sum x],
[sum x, sum x2]] and XtY, invert analytically with
inv = (1 / det) * [[d, -b], [-c, a]], and return beta = inv * XtY. -/
def fit_beta_spec (x y : List ℚ) : ℚ × ℚ :=
  let a := (x.length : ℚ)
  let b := x.sum
  let c := x.sum
  let d := (x.map (fun xi => xi ^ 2)).sum
  let det := a * d - b * c
  let ty0 := y.sum
  let ty1 := (List.zipWith (fun xi yi => xi * yi) x y).sum
  ((1 / det * d) * ty0 + (1 / det * (-b)) * ty1,
   (1 / det * (-c)) * ty0 + (1 / det * a) * ty1)

/-- The default sample of descriptive_stats.py (the fixture wattage
measurements of the end-to-end scenario). -/
def sampleData : List ℚ :=
  [120, 100, 130, 122, 120, 78, 100, 100, 130, 80, 100, 120]

/-- The record descriptive_stats returns on sampleData. -/
def R4 : DStats :=
  { n := 12, mean := 325 / 3, variance := 964 / 3,
    deviations := [35 / 3, -25 / 3, 65 / 3, 41 / 3, 35 / 3, -91 / 3,
                   -25 / 3, -25 / 3, 65 / 3, -85 / 3, -25 / 3, 35 / 3],
    sq_deviations := [1225 / 9, 625 / 9, 4225 / 9, 1681 / 9, 1225 / 9, 8281 / 9,
                      625 / 9, 625 / 9, 4225 / 9, 7225 / 9, 625 / 9, 1225 / 9] }

/-- A two-observation sample used to instantiate the general part of
the descriptive statistics claim. -/
def R4w : DStats :=
  { n := 2, mean := 3 / 2, variance := 1 / 2,
    deviations := [-1 / 2, 1 / 2], sq_deviations := [1 / 4, 1 / 4] }

/-- The x data of the regression end-to-end scenario (the default of
least_squares_matrix.py). -/
def X5 : List ℚ := [1 / 2, 4, 6, 8, 10]

/-- The y data of the regression end-to-end scenario (the default of
least_squares_matrix.py). -/
def Y5 : List ℚ := [6, 7, 7, 8, 7]

/-- The record ols_matrix returns on the end-to-end scenario data. -/
def R5 : OlsResult :=
  { b0 := 6677 / 1076, b1 := 75 / 538, r_squared := 1125 / 2152,
    ss_reg := 1125 / 1076, ss_res := 1027 / 1076, ss_tot := 2,
    mse := 1027 / 3228,
    y_hat := [1688 / 269, 7277 / 1076, 7577 / 1076, 7877 / 1076, 8177 / 1076],
    residuals := [-74 / 269, 255 / 1076, -45 / 1076, 731 / 1076, -645 / 1076],
    xtx00 := 5, xtx01 := 57 / 2, xtx10 := 57 / 2, xtx11 := 865 / 4,
    xty0 := 35, xty1 := 207,
    inv00 := 865 / 1076, inv01 := -57 / 538, inv10 := -57 / 538, inv11 := 5 / 269,
    det := 269 }

/-- The record ols_matrix returns on x = [0, 1, 2], y = [0, 1, 2]
(an exact-fit instance used as a concrete witness). -/
def R6 : OlsResult :=
  { b0 := 0, b1 := 1, r_squared := 1, ss_reg := 2, ss_res := 0, ss_tot := 2,
    mse := 0, y_hat := [0, 1, 2], residuals := [0, 0, 0],
    xtx00 := 3, xtx01 := 3, xtx10 := 3, xtx11 := 5, xty0 := 3, xty1 := 5,
    inv00 := 5 / 6, inv01 := -1 / 2, inv10 := -1 / 2, inv11 := 1 / 2, det := 6 }

/-- The record ols_matrix returns on x = [0, 1, 2], y = [5, 5, 6]
(a non-exact-fit instance used as a concrete witness). -/
def R10 : OlsResult :=
  { b0 := 29 / 6, b1 := 1 / 2, r_squared := 3 / 4, ss_reg := 1 / 2,
    ss_res := 1 / 6, ss_tot := 2 / 3, mse := 1 / 6,
    y_hat := [29 / 6, 16 / 3, 35 / 6], residuals := [1 / 6, -1 / 3, 1 / 6],
    xtx00 := 3, xtx01 := 3, xtx10 := 3, xtx11 := 5, xty0 := 16, xty1 := 17,
    inv00 := 5 / 6, inv01 := -1 / 2, inv10 := -1 / 2, inv11 := 1 / 2, det := 6 }

/-! ## General lemmas about the embedded computations -/

/-- A sum of squares over a list of rationals is nonnegative. -/
theorem sum_sq_nonneg (l : List ℚ) : 0 ≤ (l.map (fun v => v ^ 2)).sum := by
  refine List.sum_nonneg ?_
  intro v hv
  obtain ⟨w, hw, rfl⟩ := List.mem_map.mp hv
  positivity

/-- A sum of squared deviations over a list of rationals is nonnegative. -/
theorem sum_center_sq_nonneg (l : List ℚ) (m : ℚ) :
    0 ≤ (l.map (fun v => (v - m) ^ 2)).sum := by
  refine List.sum_nonneg ?_
  intro v hv
  obtain ⟨w, hw, rfl⟩ := List.mem_map.mp hv
  positivity

/-- Expansion of a centered sum of squares into raw power sums. -/
theorem sum_center_sq (l : List ℚ) (m : ℚ) :
    (l.map (fun v => (v - m) ^ 2)).sum
      = (l.map (fun v => v ^ 2)).sum - 2 * m * l.sum + (l.length : ℚ) * m ^ 2 := by
  induction l with
  | nil => simp
  | cons a t ih =>
    simp only [List.map_cons, List.sum_cons, List.length_cons, ih]
    push_cast
    ring

/-- Expansion of the residual sum of squares of a line with intercept
c0 and slope c1 into the raw power sums of paired data. -/
theorem sum_res_sq (x y : List ℚ) (h : x.length = y.length) (c0 c1 : ℚ) :
    ((List.zipWith (fun yi yhi => yi - yhi) y (x.map (fun xi => c0 + c1 * xi))).map
        (fun r => r ^ 2)).sum
      = (y.map (fun v => v ^ 2)).sum - 2 * c0 * y.sum
        - 2 * c1 * (List.zipWith (fun xi yi => xi * yi) x y).sum
        + 2 * c0 * c1 * x.sum + (x.length : ℚ) * c0 ^ 2
        + c1 ^ 2 * (x.map (fun v => v ^ 2)).sum := by
  induction x generalizing y with
  | nil =>
    cases y with
    | nil => simp
    | cons b ys => simp at h
  | cons a xs ih =>
    cases y with
    | nil => simp at h
    | cons b ys =>
      simp only [List.length_cons] at h
      have hlen : xs.length = ys.length := by omega
      simp only [List.map_cons, List.zipWith_cons_cons, List.sum_cons, List.length_cons,
        ih ys hlen]
      push_cast
      ring

/-- The determinant of XtX is nonnegative for every nonempty x (the
Cauchy-Schwarz direction the source relies on implicitly). -/
theorem olsDet_nonneg (x : List ℚ) (hn : x.length ≠ 0) : 0 ≤ olsDet x := by
  have hnq : (x.length : ℚ) ≠ 0 := Nat.cast_ne_zero.mpr hn
  have hpos : (0 : ℚ) < (x.length : ℚ) := by
    exact_mod_cast Nat.pos_of_ne_zero hn
  have h := sum_center_sq_nonneg x (x.sum / (x.length : ℚ))
  rw [sum_center_sq] at h
  have h2 := mul_nonneg hpos.le h
  have key : (x.length : ℚ)
      * ((x.map (fun v => v ^ 2)).sum - 2 * (x.sum / (x.length : ℚ)) * x.sum
          + (x.length : ℚ) * (x.sum / (x.length : ℚ)) ^ 2)
      = olsDet x := by
    rw [olsDet]
    field_simp
    ring
  rw [key] at h2
  exact h2

/-- The quantity olsDet compares the map over fun v with the map over
fun xi; the two spellings are the same function. -/
theorem olsDet_eq (x : List ℚ) :
    olsDet x = (x.length : ℚ) * (x.map (fun v => v ^ 2)).sum - x.sum * x.sum := rfl

/-- The sum-of-squares gap of the fitted line: ss_tot - ss_res equals
a ratio of squares, hence is nonnegative whenever det is nonzero. -/
theorem ss_gap_eq (x y : List ℚ) (hlen : x.length = y.length) (hn : x.length ≠ 0)
    (hdet : olsDet x ≠ 0) :
    olsSStot x y - olsSSres x y
      = ((x.length : ℚ) * (List.zipWith (fun xi yi => xi * yi) x y).sum - x.sum * y.sum) ^ 2
        / ((x.length : ℚ) * olsDet x) := by
  have hnq : (x.length : ℚ) ≠ 0 := Nat.cast_ne_zero.mpr hn
  have hyx : (y.length : ℚ) = (x.length : ℚ) := by rw [hlen]
  rw [olsSStot, olsSSres, sum_res_sq x y hlen, sum_center_sq, olsB0, olsB1, hyx]
  rw [olsDet_eq] at hdet ⊢
  field_simp
  ring

/-- ss_res never exceeds ss_tot at the closed-form solution: the fitted
line is at least as good as the constant mean fit. -/
theorem olsSSres_le_olsSStot (x y : List ℚ) (hlen : x.length = y.length)
    (hn : x.length ≠ 0) (hdet : olsDet x ≠ 0) : olsSSres x y ≤ olsSStot x y := by
  have hdpos : 0 < olsDet x := lt_of_le_of_ne (olsDet_nonneg x hn) (Ne.symm hdet)
  have hnpos : (0 : ℚ) < (x.length : ℚ) := by
    exact_mod_cast Nat.pos_of_ne_zero hn
  have h := ss_gap_eq x y hlen hn hdet
  have hge : 0 ≤ olsSStot x y - olsSSres x y := by
    rw [h]
    positivity
  linarith

/-- Inversion for descriptive_stats: a successful run determines every
field of the record and implies n is at least 2. -/
theorem descriptive_stats_ok (data : List ℚ) (r : DStats)
    (h : descriptive_stats data = .ok r) :
    data.length ≠ 0 ∧ data.length ≠ 1 ∧
    r.n = data.length ∧
    r.mean = data.sum / (data.length : ℚ) ∧
    r.deviations = data.map (fun v => v - data.sum / (data.length : ℚ)) ∧
    r.sq_deviations = (data.map (fun v => v - data.sum / (data.length : ℚ))).map
      (fun d => d ^ 2) ∧
    r.variance = ((data.map (fun v => v - data.sum / (data.length : ℚ))).map
      (fun d => d ^ 2)).sum / ((data.length : ℚ) - 1) := by
  by_cases h0 : data.length = 0
  · simp [descriptive_stats, h0] at h
  · by_cases h1 : data.length = 1
    · simp [descriptive_stats, h0, h1] at h
    · simp only [descriptive_stats, h0, h1, if_false, Except.ok.injEq] at h
      subst h
      exact ⟨h0, h1, rfl, rfl, rfl, rfl, rfl⟩

/-- Inversion for ols_matrix: a successful run determines every
rational field of the record and implies det is nonzero and n is not 2. -/
theorem ols_matrix_ok (x y : List ℚ) (r : OlsResult)
    (h : ols_matrix x y = .ok r) :
    olsDet x ≠ 0 ∧ x.length ≠ 2 ∧
    r.det = olsDet x ∧
    r.b0 = olsB0 x y ∧
    r.b1 = olsB1 x y ∧
    r.ss_res = olsSSres x y ∧
    r.ss_tot = olsSStot x y ∧
    r.ss_reg = olsSStot x y - olsSSres x y ∧
    r.r_squared = (if 0 < olsSStot x y then 1 - olsSSres x y / olsSStot x y else 0) ∧
    r.mse = olsSSres x y / ((x.length : ℚ) - 2) := by
  by_cases hdet : (x.length : ℚ) * (x.map (fun xi => xi ^ 2)).sum - x.sum * x.sum = 0
  · simp [ols_matrix, hdet] at h
  · by_cases hn2 : x.length = 2
    · rw [hn2] at hdet
      push_cast at hdet
      simp [ols_matrix, hdet, hn2] at h
    · simp only [ols_matrix, hdet, hn2, if_false, Except.ok.injEq] at h
      subst h
      refine ⟨hdet, hn2, rfl, rfl, rfl, ?_, rfl, ?_, ?_, ?_⟩
      · rfl
      · rfl
      · rfl
      · rfl

/-- On a list whose entries are all equal the determinant of XtX
vanishes identically. -/
theorem olsDet_constant (c : ℚ) (x : List ℚ) (hc : ∀ a ∈ x, a = c) :
    olsDet x = 0 := by
  have hx : x = List.replicate x.length c := List.eq_replicate_length.mpr hc
  rw [olsDet]
  conv_lhs => rw [hx]
  simp only [List.length_replicate, List.map_replicate, List.sum_replicate, nsmul_eq_mul]
  ring

/-! ## Claim theorems -/

/-- Claim C1: for every pair of equal-length inputs x, y with
len(x) = len(y) at least 3 in which all x values are identical (so the
determinant of XtX is zero), the fit fails with the singular design
matrix error instead of returning a result. -/
theorem fit_constant_x_singular (c : ℚ) (x y : List ℚ)
    (_hlen : x.length = y.length) (_h3 : 3 ≤ x.length) (hc : ∀ a ∈ x, a = c) :
    ols_matrix x y = .error .singularDesignMatrix := by
  have hd : (x.length : ℚ) * (x.map (fun xi => xi ^ 2)).sum - x.sum * x.sum = 0 :=
    olsDet_constant c x hc
  simp [ols_matrix, hd]

/-- Witness for C1 at x = [5, 5, 5], y = [1, 2, 3]. -/
theorem fit_constant_x_singular_witness :
    ols_matrix [5, 5, 5] [1, 2, 3] = .error .singularDesignMatrix :=
  fit_constant_x_singular 5 [5, 5, 5] [1, 2, 3] (by decide) (by decide) (by norm_num)

/-- Claim C2: on a sample of fewer than 2 observations descriptive
statistics fail with the insufficient sample size error (the variance
is undefined), and on every sample of at least 2 observations a
complete record is returned. -/
theorem descriptive_stats_sample_size (data : List ℚ) :
    (data.length < 2 → descriptive_stats data = .error .insufficientSampleSize) ∧
    (2 ≤ data.length → ∃ r, descriptive_stats data = .ok r) := by
  constructor
  · intro h
    have h01 : data.length = 0 ∨ data.length = 1 := by omega
    rcases h01 with h0 | h1
    · simp [descriptive_stats, h0]
    · simp [descriptive_stats, h1]
  · intro h
    have h0 : data.length ≠ 0 := by omega
    have h1 : data.length ≠ 1 := by omega
    refine ⟨{ n := data.length,
              mean := data.sum / (data.length : ℚ),
              variance := ((data.map (fun v => v - data.sum / (data.length : ℚ))).map
                (fun d => d ^ 2)).sum / ((data.length : ℚ) - 1),
              deviations := data.map (fun v => v - data.sum / (data.length : ℚ)),
              sq_deviations := (data.map (fun v => v - data.sum / (data.length : ℚ))).map
                (fun d => d ^ 2) }, ?_⟩
    simp [descriptive_stats, h0, h1]

/-- Witness for C2 at the one-element sample [7] and the two-element
sample [1, 2]. -/
theorem descriptive_stats_sample_size_witness :
    descriptive_stats [7] = .error .insufficientSampleSize ∧
    ∃ r, descriptive_stats [1, 2] = .ok r :=
  ⟨(descriptive_stats_sample_size [7]).1 (by decide),
   (descriptive_stats_sample_size [1, 2]).2 (by decide)⟩

/-- Counterexample to claim C3 as stated: at n = 2 with identical x
values (x = [5, 5], y = [6, 7]) the fit fails, but with the singular
design matrix error raised by the earlier division by det, not with
the degenerate degrees of freedom error the claim names. -/
theorem fit_two_points_counterexample :
    ols_matrix [5, 5] [6, 7] = .error .singularDesignMatrix ∧
    ols_matrix [5, 5] [6, 7] ≠ .error .degenerateDegreesOfFreedom := by
  have h : ols_matrix [5, 5] [6, 7] = .error .singularDesignMatrix := by
    norm_num [ols_matrix]
  exact ⟨h, by rw [h]; simp⟩

/-- Claim C3 as amended: for every pair of equal-length inputs with
exactly n = 2 observations whose x values are not identical (so det is
nonzero and the singular check passes), the fit fails with the
degenerate degrees of freedom error, because mse = ss_res / (n - 2)
has zero residual degrees of freedom. -/
theorem fit_two_points_degenerate (a b : ℚ) (hab : a ≠ b) (y : List ℚ)
    (_hy : y.length = 2) :
    ols_matrix [a, b] y = .error .degenerateDegreesOfFreedom := by
  have hne : 2 * (a ^ 2 + b ^ 2) - (a + b) * (a + b) ≠ 0 := by
    intro hcontra
    apply hab
    have key : (a - b) ^ 2 = 0 := by nlinarith [hcontra]
    have h2 : a - b = 0 := pow_eq_zero_iff (by norm_num : (2 : ℕ) ≠ 0) |>.mp key
    linarith
  have hd : ¬((([a, b] : List ℚ).length : ℚ)
      * (([a, b] : List ℚ).map (fun xi => xi ^ 2)).sum
      - ([a, b] : List ℚ).sum * ([a, b] : List ℚ).sum = 0) := by
    simp only [List.length_cons, List.length_nil, List.map_cons, List.map_nil,
      List.sum_cons, List.sum_nil, add_zero]
    push_cast
    intro hcontra
    exact hne (by linarith)
  simp only [ols_matrix]
  rw [if_neg hd, if_pos (show ([a, b] : List ℚ).length = 2 from rfl)]

/-- Witness for the amended C3 at x = [1, 2], y = [3, 4]. -/
theorem fit_two_points_degenerate_witness :
    ols_matrix [1, 2] [3, 4] = .error .degenerateDegreesOfFreedom :=
  fit_two_points_degenerate 1 2 (by decide) [3, 4] (by decide)

/-- Counterexample to claim C4 as stated: on the end-to-end sample
[120, 100, 130, 122, 120, 78, 100, 100, 130, 80, 100, 120] the mean
returned is 325/3 = 108.33, not the 100.0 the claim asserts (the
sample sums to 1300, not 1200). -/
theorem descriptive_stats_scenario_counterexample :
    Except.map (fun r : DStats => r.mean) (descriptive_stats sampleData)
      = Except.ok (325 / 3 : ℚ) ∧ (325 / 3 : ℚ) ≠ 100 := by
  constructor
  · have h : descriptive_stats sampleData = .ok R4 := by
      norm_num [descriptive_stats, sampleData, R4]
    rw [h]
    norm_num [Except.map, R4]
  · norm_num

/-- Claim C4 as amended: descriptive statistics return
mean = sum / n, deviations x_i - mean, Bessel-corrected sample
variance (sum of squared deviations over n - 1), std_dev =
sqrt(variance) and cv = std_dev / mean (infinity at mean zero); on the
sample [120, 100, 130, 122, 120, 78, 100, 100, 130, 80, 100, 120] the
result is n = 12, mean = 325/3 = 108.33, variance = 964/3 = 321.33,
std_dev = 17.93 and cv = 0.1655. -/
theorem descriptive_stats_formulas :
    (∀ (data : List ℚ) (r : DStats), descriptive_stats data = .ok r →
      r.mean = data.sum / (data.length : ℚ) ∧
      r.deviations = data.map (fun v => v - r.mean) ∧
      r.sq_deviations = r.deviations.map (fun d => d ^ 2) ∧
      r.variance = r.sq_deviations.sum / ((data.length : ℚ) - 1) ∧
      r.std_dev = Real.sqrt (r.variance : ℝ) ∧
      (r.mean = 0 → r.cv = ⊤) ∧
      (r.mean ≠ 0 → r.cv = ((r.std_dev / (r.mean : ℝ) : ℝ) : EReal))) ∧
    (∃ r : DStats, descriptive_stats sampleData = .ok r ∧
      r.n = 12 ∧ r.mean = 325 / 3 ∧ r.variance = 964 / 3 ∧
      (17.92 : ℝ) < r.std_dev ∧ r.std_dev < 17.93 ∧
      ((0.1654 : ℝ) : EReal) < r.cv ∧ r.cv < ((0.1656 : ℝ) : EReal)) := by
  constructor
  · intro data r h
    obtain ⟨h0, h1, hn, hmean, hdev, hsq, hvar⟩ := descriptive_stats_ok data r h
    refine ⟨hmean, ?_, ?_, ?_, rfl, ?_, ?_⟩
    · rw [hdev, hmean]
    · rw [hsq, hdev]
    · rw [hvar, hsq]
    · intro hz
      rw [DStats.cv, if_pos hz]
    · intro hz
      rw [DStats.cv, if_neg hz]
  · have hok : descriptive_stats sampleData = .ok R4 := by
      norm_num [descriptive_stats, sampleData, R4]
    have hvar : R4.variance = 964 / 3 := by norm_num [R4]
    have hmean : R4.mean = 325 / 3 := by norm_num [R4]
    have hcast : ((R4.variance : ℚ) : ℝ) = 964 / 3 := by rw [hvar]; norm_num
    have hs1 : (17.92 : ℝ) < R4.std_dev := by
      rw [DStats.std_dev, hcast]
      refine (Real.lt_sqrt (by norm_num)).mpr (by norm_num)
    have hs2 : R4.std_dev < 17.93 := by
      rw [DStats.std_dev, hcast]
      refine (Real.sqrt_lt' (by norm_num)).mpr (by norm_num)
    have hmc : ((R4.mean : ℚ) : ℝ) = 325 / 3 := by rw [hmean]; norm_num
    have hcv : R4.cv = ((R4.std_dev / ((R4.mean : ℚ) : ℝ) : ℝ) : EReal) := by
      rw [DStats.cv, if_neg (by rw [hmean]; norm_num)]
    have hcv1 : (0.1654 : ℝ) < R4.std_dev / ((R4.mean : ℚ) : ℝ) := by
      rw [hmc, lt_div_iff₀ (by norm_num : (0 : ℝ) < 325 / 3)]
      nlinarith [hs1]
    have hcv2 : R4.std_dev / ((R4.mean : ℚ) : ℝ) < 0.1656 := by
      rw [hmc, div_lt_iff₀ (by norm_num : (0 : ℝ) < 325 / 3)]
      nlinarith [hs2]
    refine ⟨R4, hok, by norm_num [R4], hmean, hvar, hs1, hs2, ?_, ?_⟩
    · rw [hcv]
      exact_mod_cast EReal.coe_lt_coe_iff.mpr hcv1
    · rw [hcv]
      exact_mod_cast EReal.coe_lt_coe_iff.mpr hcv2

/-- Witness for the general part of the amended C4 at the sample
[1, 2], whose record has mean 3/2. -/
theorem descriptive_stats_formulas_witness :
    R4w.mean = ([1, 2] : List ℚ).sum / ((([1, 2] : List ℚ).length : ℚ)) :=
  (descriptive_stats_formulas.1 [1, 2] R4w
    (by norm_num [descriptive_stats, R4w])).1

/-- Counterexample to claim C5 as stated: on the end-to-end data
x = [0.5, 4, 6, 8, 10], y = [6, 7, 7, 8, 7] the fit returns
b0 = 6677/1076 = 6.2054 and b1 = 75/538 = 0.1394, far from the
b0 = 6.2426 and b1 = 0.0827 the claim asserts. -/
theorem fit_scenario_counterexample :
    Except.map (fun r : OlsResult => (r.b0, r.b1)) (ols_matrix X5 Y5)
      = Except.ok ((6677 / 1076 : ℚ), (75 / 538 : ℚ)) ∧
    ¬|(6677 / 1076 : ℚ) - 62426 / 10000| < 1 / 100 ∧
    ¬|(75 / 538 : ℚ) - 827 / 10000| < 1 / 100 := by
  refine ⟨?_, by rw [abs_sub_lt_iff]; norm_num, by rw [abs_sub_lt_iff]; norm_num⟩
  have h : ols_matrix X5 Y5 = .ok R5 := by
    norm_num [ols_matrix, X5, Y5, R5]
  rw [h]
  norm_num [Except.map, R5]

/-- Claim C5 as amended: whenever the fit succeeds, the returned
(b0, b1) equals the closed-form solution inv(XtX) * XtY with the
analytic 2x2 inverse prescribed by the spec; on the end-to-end data
x = [0.5, 4, 6, 8, 10], y = [6, 7, 7, 8, 7] it returns b0 = 6677/1076
(about 6.2054) and b1 = 75/538 (about 0.1394). -/
theorem fit_closed_form :
    (∀ (x y : List ℚ) (r : OlsResult), ols_matrix x y = .ok r →
      (r.b0, r.b1) = fit_beta_spec x y) ∧
    (ols_matrix X5 Y5 = .ok R5 ∧ R5.b0 = 6677 / 1076 ∧ R5.b1 = 75 / 538 ∧
      |R5.b0 - 62054 / 10000| < 1 / 10000 ∧ |R5.b1 - 1394 / 10000| < 1 / 10000) := by
  constructor
  · intro x y r h
    obtain ⟨hdet, hn2, hd, hb0, hb1, _⟩ := ols_matrix_ok x y r h
    rw [hb0, hb1, fit_beta_spec, olsB0, olsB1, olsDet]
    refine Prod.ext ?_ ?_
    · show ((x.map (fun xi => xi ^ 2)).sum / _) * y.sum + _ = _
      ring
    · show (-x.sum / _) * y.sum + _ = _
      ring
  · refine ⟨?_, by norm_num [R5], by norm_num [R5], ?_, ?_⟩
    · norm_num [ols_matrix, X5, Y5, R5]
    · rw [show R5.b0 = 6677 / 1076 by norm_num [R5], abs_sub_lt_iff]
      norm_num
    · rw [show R5.b1 = 75 / 538 by norm_num [R5], abs_sub_lt_iff]
      norm_num

/-- Witness for the general part of the amended C5 at the end-to-end
data and its concrete result record. -/
theorem fit_closed_form_witness :
    ((R5.b0, R5.b1) : ℚ × ℚ) = fit_beta_spec X5 Y5 :=
  fit_closed_form.1 X5 Y5 R5 (by norm_num [ols_matrix, X5, Y5, R5])

/-- Claim C6: every result the fit returns satisfies the exact
decomposition ss_tot = ss_reg + ss_res, and r_squared equals
1 - ss_res / ss_tot when ss_tot is positive and 0 by convention when
ss_tot is zero. -/
theorem fit_sum_of_squares_decomposition (x y : List ℚ) (r : OlsResult)
    (h : ols_matrix x y = .ok r) :
    r.ss_tot = r.ss_reg + r.ss_res ∧
    (0 < r.ss_tot → r.r_squared = 1 - r.ss_res / r.ss_tot) ∧
    (r.ss_tot = 0 → r.r_squared = 0) := by
  obtain ⟨hdet, hn2, hd, hb0, hb1, hres, htot, hreg, hr2, hmse⟩ := ols_matrix_ok x y r h
  refine ⟨by rw [htot, hreg, hres]; ring, ?_, ?_⟩
  · intro hpos
    rw [hr2, if_pos (by rw [← htot]; exact hpos), hres, htot]
  · intro hzero
    rw [hr2, if_neg (by rw [← htot, hzero]; exact lt_irrefl 0)]

/-- Witness for C6 at x = [0, 1, 2], y = [0, 1, 2] and its concrete
result record (an exact fit, ss_tot = 2, ss_res = 0). -/
theorem fit_sum_of_squares_decomposition_witness :
    R6.ss_tot = R6.ss_reg + R6.ss_res ∧ R6.r_squared = 1 - R6.ss_res / R6.ss_tot :=
  ⟨(fit_sum_of_squares_decomposition [0, 1, 2] [0, 1, 2] R6
      (by norm_num [ols_matrix, R6])).1,
   (fit_sum_of_squares_decomposition [0, 1, 2] [0, 1, 2] R6
      (by norm_num [ols_matrix, R6])).2.1 (by norm_num [R6])⟩

/-- Claim C7: n0 is (z * cv / precision) squared; the finite population
correction never exceeds n0 and shrinks monotonically as N shrinks;
the z table gives 1.645 at 90 percent confidence, and the scenario
cv = 0.25, precision = 0.10 at 90 percent yields n0 about 16.9. -/
theorem required_sample_size_props (z cv p N1 N2 : ℚ) (hz : 0 < z)
    (hcv : 0 < cv) (hp : 0 < p) (hN1 : 0 < N1) (hN12 : N1 ≤ N2) :
    sample_size_infinite z cv p = (z * cv / p) ^ 2 ∧
    sample_size_finite (sample_size_infinite z cv p) N2
      ≤ sample_size_infinite z cv p ∧
    sample_size_finite (sample_size_infinite z cv p) N1
      ≤ sample_size_finite (sample_size_infinite z cv p) N2 ∧
    z_score 90 = some (1645 / 1000) ∧
    |sample_size_infinite (1645 / 1000) (1 / 4) (1 / 10) - 169 / 10| < 2 / 100 := by
  have hn0 : 0 < sample_size_infinite z cv p := by
    rw [sample_size_infinite]
    positivity
  have hN2 : 0 < N2 := lt_of_lt_of_le hN1 hN12
  set n0 := sample_size_infinite z cv p with hn0def
  refine ⟨rfl, ?_, ?_, by norm_num [z_score], ?_⟩
  · rw [sample_size_finite, div_le_iff₀ (by positivity)]
    nlinarith [hn0, hN2]
  · rw [sample_size_finite, sample_size_finite,
      div_le_div_iff₀ (by positivity) (by positivity)]
    nlinarith [hn0, hN1, hN2, hN12, mul_nonneg (mul_pos hn0 hn0).le (sub_nonneg.mpr hN12)]
  · rw [sample_size_infinite, abs_sub_lt_iff]
    norm_num

/-- Witness for C7 at z = 1.645, cv = 0.25, precision = 0.1, N1 = 500,
N2 = 1000. -/
theorem required_sample_size_props_witness :
    sample_size_infinite (1645 / 1000) (1 / 4) (1 / 10)
      = ((1645 / 1000 : ℚ) * (1 / 4) / (1 / 10)) ^ 2 ∧
    sample_size_finite (sample_size_infinite (1645 / 1000) (1 / 4) (1 / 10)) 1000
      ≤ sample_size_infinite (1645 / 1000) (1 / 4) (1 / 10) ∧
    sample_size_finite (sample_size_infinite (1645 / 1000) (1 / 4) (1 / 10)) 500
      ≤ sample_size_finite (sample_size_infinite (1645 / 1000) (1 / 4) (1 / 10)) 1000 ∧
    z_score 90 = some (1645 / 1000) ∧
    |sample_size_infinite (1645 / 1000) (1 / 4) (1 / 10) - 169 / 10| < 2 / 100 :=
  required_sample_size_props (1645 / 1000) (1 / 4) (1 / 10) 500 1000
    (by norm_num) (by norm_num) (by norm_num) (by norm_num) (by norm_num)

/-- Drawing k elements without replacement from a pool of at least k
elements yields exactly k elements. -/
theorem sample_without_replacement_length (k : ℕ) :
    ∀ (pool : List ℚ) (pick : ℕ → ℕ), k ≤ pool.length →
    (sample_without_replacement pool k pick).length = k := by
  induction k with
  | zero => intro pool pick _; rfl
  | succ k ih =>
    intro pool pick h
    rw [sample_without_replacement]
    have hp : ¬pool.length = 0 := by omega
    rw [dif_neg hp]
    have hi : pick k % pool.length < pool.length :=
      Nat.mod_lt _ (Nat.pos_of_ne_zero hp)
    have herase : (pool.eraseIdx (pick k % pool.length)).length = pool.length - 1 := by
      rw [List.length_eraseIdx]
      simp [hi]
    have hk : k ≤ (pool.eraseIdx (pick k % pool.length)).length := by
      rw [herase]; omega
    simp only [List.length_cons, ih _ pick hk]

/-- Every draw without replacement is a sub-permutation of the pool:
it uses no pool position twice. -/
theorem sample_without_replacement_subperm (k : ℕ) :
    ∀ (pool : List ℚ) (pick : ℕ → ℕ),
    List.Subperm (sample_without_replacement pool k pick) pool := by
  induction k with
  | zero => intro pool pick; exact List.nil_subperm
  | succ k ih =>
    intro pool pick
    rw [sample_without_replacement]
    by_cases hp : pool.length = 0
    · rw [dif_pos hp]; exact List.nil_subperm
    · rw [dif_neg hp]
      have hi : pick k % pool.length < pool.length :=
        Nat.mod_lt _ (Nat.pos_of_ne_zero hp)
      have hget : pool.getD (pick k % pool.length) 0
          = pool[pick k % pool.length] := List.getD_eq_getElem _ _ hi
      have hperm : List.Perm
          (pool.getD (pick k % pool.length) 0
            :: pool.eraseIdx (pick k % pool.length)) pool := by
        rw [hget, List.eraseIdx_eq_take_drop_succ]
        conv_rhs => rw [← List.take_append_drop (pick k % pool.length) pool,
          List.drop_eq_getElem_cons hi]
        exact List.perm_middle.symm
      obtain ⟨u, hu1, hu2⟩ := ih (pool.eraseIdx (pick k % pool.length)) pick
      have hsub : List.Subperm
          (pool.getD (pick k % pool.length) 0
            :: sample_without_replacement
              (pool.eraseIdx (pick k % pool.length)) k pick)
          (pool.getD (pick k % pool.length) 0
            :: pool.eraseIdx (pick k % pool.length)) :=
        ⟨_ :: u, hu1.cons _, hu2.cons₂ _⟩
      exact hsub.trans hperm.subperm

/-- Claim C8: draw_sample returns exactly
min(sample_size, len(population)) elements, drawn without replacement
(the draw is a sub-permutation of the population, so no population
position is used twice); an oversized request is clamped, never an
error. -/
theorem draw_sample_spec (population : List ℚ) (sample_size : ℕ) (pick : ℕ → ℕ) :
    (draw_sample population sample_size pick).length
      = min sample_size population.length ∧
    List.Subperm (draw_sample population sample_size pick) population := by
  rw [draw_sample]
  exact ⟨sample_without_replacement_length _ _ pick (min_le_right _ _),
    sample_without_replacement_subperm _ _ pick⟩

/-- Claim C9: generate_population returns exactly n values, each
clamped to be non-negative, whatever the normal sampler draws. -/
theorem generate_population_spec (g : ℕ → ℚ) (n : ℕ) :
    (generate_population g n).length = n ∧
    ∀ v ∈ generate_population g n, 0 ≤ v := by
  constructor
  · simp [generate_population]
  · intro v hv
    rw [generate_population] at hv
    obtain ⟨i, _, rfl⟩ := List.mem_map.mp hv
    exact le_max_left 0 _

/-- Claim C10: for equal-length inputs of at least 3 observations, a
successful fit satisfies 0 <= ss_res <= ss_tot exactly, hence
ss_reg >= 0 and r_squared lies in [0, 1], with no clamping anywhere in
the computation: the closed-form line is at least as good as the
constant mean fit. -/
theorem fit_r_squared_bounds (x y : List ℚ) (hlen : x.length = y.length)
    (h3 : 3 ≤ x.length) (r : OlsResult) (h : ols_matrix x y = .ok r) :
    0 ≤ r.ss_res ∧ r.ss_res ≤ r.ss_tot ∧ 0 ≤ r.ss_reg ∧
    0 ≤ r.r_squared ∧ r.r_squared ≤ 1 := by
  obtain ⟨hdet, hn2, hd, hb0, hb1, hres, htot, hreg, hr2, hmse⟩ := ols_matrix_ok x y r h
  have hn : x.length ≠ 0 := by omega
  have hres_nonneg : 0 ≤ olsSSres x y := by
    rw [olsSSres]
    exact sum_sq_nonneg _
  have htot_nonneg : 0 ≤ olsSStot x y := by
    rw [olsSStot]
    exact sum_center_sq_nonneg _ _
  have hle : olsSSres x y ≤ olsSStot x y := olsSSres_le_olsSStot x y hlen hn hdet
  refine ⟨by rw [hres]; exact hres_nonneg,
          by rw [hres, htot]; exact hle,
          by rw [hreg]; linarith, ?_, ?_⟩
  · rw [hr2]
    split_ifs with hpos
    · have hgap : olsSSres x y / olsSStot x y ≤ 1 := (div_le_one hpos).mpr hle
      linarith
    · exact le_refl 0
  · rw [hr2]
    split_ifs with hpos
    · have hgap : 0 ≤ olsSSres x y / olsSStot x y :=
        div_nonneg hres_nonneg htot_nonneg
      linarith
    · exact zero_le_one

/-- Witness for C10 at x = [0, 1, 2], y = [5, 5, 6] and its concrete
result record (ss_res = 1/6, ss_tot = 2/3, r_squared = 3/4). -/
theorem fit_r_squared_bounds_witness :
    0 ≤ R10.ss_res ∧ R10.ss_res ≤ R10.ss_tot ∧ 0 ≤ R10.ss_reg ∧
    0 ≤ R10.r_squared ∧ R10.r_squared ≤ 1 :=
  fit_r_squared_bounds [0, 1, 2] [5, 5, 6] (by decide) (by decide) R10
    (by norm_num [ols_matrix, R10])
